import Mathlib

/-!
Shallow embedding of the claim-processing core of the wallet-migration
backend (src/router/wallet.js): the CSV-backed allocation registry, the
POST /wallet/claim validation-and-ledger pipeline, and the
GET /wallet/allocations/:address summary, together with theorems about
the behaviour specified for them.

JavaScript values that flow through the request body are modelled by
`JsVal` (undefined, null, booleans, numbers, NaN, strings), amounts by ℚ,
and the Postgres store by in-memory lists of rows.  Each route handler
becomes a pure function from the registry, the store and the request to a
response, a new store and a trace of the SQL operations it issued.
-/

attribute [local semireducible] Rat.mul Rat.add Rat.sub Rat.inv Rat.ofScientific

deriving instance DecidableEq for Except

namespace WalletMigration

/-- A JavaScript value as it can appear in a JSON request body field.
`nan` stands for the number NaN, which is distinguished because it is
falsy and never equal to itself under arithmetic use. -/
inductive JsVal where
  | undef
  | null
  | boolV (b : Bool)
  | num (q : ℚ)
  | nan
  | str (s : String)
deriving DecidableEq, Repr

/-- JavaScript falsiness: undefined, null, false, 0, NaN and "" are falsy. -/
def falsy : JsVal → Bool
  | .undef => true
  | .null => true
  | .nan => true
  | .boolV b => !b
  | .num q => decide (q = 0)
  | .str s => s == ""

/-- Character-wise lowercase, modelling String.prototype.toLowerCase on the
ASCII addresses this service handles. -/
def lowerStr (s : String) : String := ⟨s.data.map Char.toLower⟩

/-- Character-wise uppercase, modelling String.prototype.toUpperCase. -/
def upperStr (s : String) : String := ⟨s.data.map Char.toUpper⟩

/-- Numeric value of an ASCII digit character. -/
def digitVal (c : Char) : ℕ := c.toNat - 48

/-- Natural number denoted by a list of ASCII digits. -/
def natOfDigits (cs : List Char) : ℕ := cs.foldl (fun a c => a * 10 + digitVal c) 0

/-- Decimal-prefix parse of a string, modelling JavaScript parseFloat on the
decimal inputs this service receives: optional leading whitespace, optional
sign, integer digits, optional fractional digits; any trailing characters are
ignored; `none` models a NaN result. -/
def parseDecimal (s : String) : Option ℚ :=
  let cs := s.data.dropWhile (fun c => c == ' ' || c == '\t' || c == '\n' || c == '\r')
  let signed : Bool × List Char :=
    match cs with
    | '-' :: t => (true, t)
    | '+' :: t => (false, t)
    | _ => (false, cs)
  let ip := signed.2.takeWhile Char.isDigit
  let rest := signed.2.dropWhile Char.isDigit
  let fp : List Char :=
    match rest with
    | '.' :: t => t.takeWhile Char.isDigit
    | _ => []
  if ip.isEmpty && fp.isEmpty then none
  else
    let q : ℚ := (natOfDigits ip : ℚ) + (natOfDigits fp : ℚ) / ((10 : ℚ) ^ fp.length)
    some (if signed.1 then -q else q)

/-- JavaScript parseFloat applied to a request-body value: numbers parse to
themselves, strings to their decimal prefix, everything else to NaN (`none`). -/
def jsParseFloat : JsVal → Option ℚ
  | .num q => some q
  | .str s => parseDecimal s
  | _ => none

/-- String.prototype.toUpperCase as a method call: defined on strings,
throwing a TypeError (modelled by `Except.error`) on any other value. -/
def jsUpper : JsVal → Except Unit String
  | .str s => .ok (upperStr s)
  | _ => .error ()

/-- String.prototype.toLowerCase as a method call: defined on strings,
throwing a TypeError on any other value. -/
def jsLower : JsVal → Except Unit String
  | .str s => .ok (lowerStr s)
  | _ => .error ()

/-- The text a value turns into when bound as a Postgres query parameter. -/
def dbKey : JsVal → String
  | .str s => s
  | .num q => toString q
  | .boolV b => toString b
  | .nan => "NaN"
  | .null => ""
  | .undef => ""

/-- One row of the wallet_allocations.csv table after load: the entitled
amount for each of the two token types. -/
structure AllocEntry where
  taral : ℚ
  rvlng : ℚ
deriving DecidableEq, Repr

/-- The in-memory allocation object built from the CSV: lowercased wallet
address keys mapped to their entitlements. -/
abbrev AllocTable := List (String × AllocEntry)

/-- Property lookup on the allocation object. -/
def lookupAlloc (tbl : AllocTable) (address : String) : Option AllocEntry :=
  (tbl.find? (fun p => p.1 == address)).map (fun p => p.2)

/-- getUserAllocation from src/router/wallet.js lines 76-85.  The registry is
`none` when loadWalletAllocations failed (its catch block returns undefined),
in which case indexing WALLET_ALLOCATIONS throws a TypeError, modelled by
`Except.error`.  Otherwise a missing address yields `none` (null) and a
present one the entitlement for the requested token type. -/
def getUserAllocation (w : Option AllocTable) (userAddress tokenType : String) :
    Except Unit (Option ℚ) :=
  match w with
  | none => .error ()
  | some tbl =>
    match lookupAlloc tbl (lowerStr userAddress) with
    | none => .ok none
    | some a => .ok (some (if upperStr tokenType == "TARAL" then a.taral else a.rvlng))

/-- The request body of POST /wallet/claim as destructured by the handler. -/
structure Request where
  tokenType : JsVal
  amount : JsVal
  transactionHash : JsVal
  userAddress : JsVal
  timestamp : JsVal
  conversionRate : JsVal
deriving DecidableEq, Repr

/-- A row of the claims table.  `id` is the serial primary key the duplicate
checks select; `created_at` is the server-assigned creation time. -/
structure ClaimRow where
  id : ℕ
  claim_id : String
  user_address : String
  token_type : String
  amount : ℚ
  transaction_hash : String
  conversion_rate : ℚ
  nova_amount : ℚ
  timestamp : String
  status : String
  created_at : ℕ
deriving DecidableEq, Repr

/-- A row of the users table: the per-wallet aggregate. -/
structure UserRow where
  address : String
  taral_claimed : ℚ
  rvlng_claimed : ℚ
  total_nova : ℚ
  first_claim_at : String
  last_claim_at : String
  updated_at : ℕ
deriving DecidableEq, Repr

/-- The transactional store: both tables, the next serial claims id, and the
server clock used for created_at / CURRENT_TIMESTAMP / Date.now(). -/
structure Store where
  claims : List ClaimRow
  users : List UserRow
  nextId : ℕ
  now : ℕ
deriving DecidableEq, Repr

/-- The responses POST /wallet/claim can produce, tagged with the structured
details each JSON body carries. -/
inductive Resp where
  | missingFields
  | invalidTokenType
  | invalidAmount
  | invalidRate
  | unknownWallet
  | allocationMismatch (expectedAmount providedAmount : ℚ)
  | duplicateTransaction (existingClaimId processedAt : ℕ)
  | alreadyClaimed (existingClaimId claimedAt : ℕ)
  | success (claimId tokenType : String) (amountClaimed novaReceived : ℚ)
      (transactionHash userAddress timestamp : String)
      (taralClaimed rvlngClaimed totalNova : ℚ) (totalClaims : ℕ)
  | internalError
deriving DecidableEq, Repr

/-- The HTTP status code each response is sent with. -/
def statusCode : Resp → ℕ
  | .missingFields => 400
  | .invalidTokenType => 400
  | .invalidAmount => 400
  | .invalidRate => 400
  | .unknownWallet => 403
  | .allocationMismatch _ _ => 400
  | .duplicateTransaction _ _ => 409
  | .alreadyClaimed _ _ => 409
  | .success _ _ _ _ _ _ _ _ _ _ _ => 200
  | .internalError => 500

/-- The outcome of the validation and authorization prefix of the handler
(lines 104-160): the normalized values it binds for the ledger phase. -/
structure Norm where
  claimAmount : ℚ
  rate : ℚ
  tokenUpper : String
  addrLower : String
  txKey : String
  userAllocation : ℚ
deriving DecidableEq, Repr

/-- The conversion rate the handler ends up using: parseFloat(conversionRate)
|| 1, so a NaN or zero parse falls back to 1 (JavaScript falsy-or). -/
def effectiveRate (v : JsVal) : ℚ :=
  match jsParseFloat v with
  | none => 1
  | some r => if r = 0 then 1 else r

/-- The required-fields condition of line 105: any falsy field is missing. -/
def fieldsMissing (r : Request) : Bool :=
  falsy r.tokenType || falsy r.amount || falsy r.transactionHash || falsy r.userAddress

/-- The token-type condition of line 113 on a string field: its uppercase
form is one of the two enumerated kinds. -/
def tokenKindValidStr (tk : String) : Bool :=
  upperStr tk == "TARAL" || upperStr tk == "RVLNG"

/-- The amount condition of lines 121-122: parseFloat yields a number
strictly greater than zero. -/
def amountValid (r : Request) : Bool :=
  match jsParseFloat r.amount with
  | none => false
  | some a => decide (0 < a)

/-- The rate condition of lines 130-131 as the code evaluates it: the
falsy-defaulted rate is strictly positive. -/
def rateValid (r : Request) : Bool :=
  decide (0 < effectiveRate r.conversionRate)

/-- A request that passes every locally decidable check of the validation
prefix: no falsy required field, a string token type naming one of the two
kinds, a positive parsed amount, a positive effective rate, and a string
wallet address.  Such a request reaches the allocation lookup. -/
def shapeOK (r : Request) : Bool :=
  !fieldsMissing r &&
  (match r.tokenType with
    | .str tk => tokenKindValidStr tk
    | _ => false) &&
  amountValid r &&
  rateValid r &&
  (match r.userAddress with
    | .str _ => true
    | _ => false)

/-- Lines 104-160 of the claim handler: field, token-type, amount and rate
validation followed by the allocation lookup and the entitlement comparison.
`Except.error` is a thrown TypeError (non-string method receiver, or the
failed-load registry); `Sum.inl` an early rejection; `Sum.inr` the
normalized request handed to the ledger phase. -/
def checkRequest (w : Option AllocTable) (req : Request) : Except Unit (Sum Resp Norm) :=
  if fieldsMissing req then .ok (.inl .missingFields)
  else
    match jsUpper req.tokenType with
    | .error _ => .error ()
    | .ok tUp =>
      if !(tUp == "TARAL" || tUp == "RVLNG") then .ok (.inl .invalidTokenType)
      else
        match jsParseFloat req.amount with
        | none => .ok (.inl .invalidAmount)
        | some claimAmount =>
          if claimAmount ≤ 0 then .ok (.inl .invalidAmount)
          else
            if effectiveRate req.conversionRate ≤ 0 then .ok (.inl .invalidRate)
            else
              match jsLower req.userAddress with
              | .error _ => .error ()
              | .ok addrLower =>
                match getUserAllocation w addrLower tUp with
                | .error _ => .error ()
                | .ok none => .ok (.inl .unknownWallet)
                | .ok (some userAllocation) =>
                  if |claimAmount - userAllocation| > 1 / 100 then
                    .ok (.inl (.allocationMismatch userAllocation claimAmount))
                  else
                    .ok (.inr ⟨claimAmount, effectiveRate req.conversionRate, tUp, addrLower,
                      dbKey req.transactionHash, userAllocation⟩)

/-- A write the ledger phase buffers inside its transaction. -/
inductive WOp where
  | insUser (address ts : String)
  | insClaim (claim_id address token : String) (amount : ℚ) (tx : String)
      (rate nova : ℚ) (ts : String)
  | updUser (address : String) (isTaral : Bool) (amount nova : ℚ) (ts : String)
deriving DecidableEq, Repr

/-- Effect of one buffered write on the store.  A claims insert receives the
next serial id and the server clock as created_at; a users insert starts the
aggregate at zero with first and last claim time set to the claim timestamp;
the users update adds the claimed and derived amounts to the addressed row. -/
def applyW (s : Store) (w : WOp) : Store :=
  match w with
  | .insUser a ts =>
    { s with users := s.users ++ [⟨a, 0, 0, 0, ts, ts, s.now⟩] }
  | .insClaim cid a tk amt tx r nova ts =>
    { s with
      claims := s.claims ++ [⟨s.nextId, cid, a, tk, amt, tx, r, nova, ts, "completed", s.now⟩],
      nextId := s.nextId + 1 }
  | .updUser a isT amt nova ts =>
    { s with users := s.users.map (fun u =>
        if u.address == a then
          if isT then
            { u with taral_claimed := u.taral_claimed + amt,
                     total_nova := u.total_nova + nova,
                     last_claim_at := ts, updated_at := s.now }
          else
            { u with rvlng_claimed := u.rvlng_claimed + amt,
                     total_nova := u.total_nova + nova,
                     last_claim_at := ts, updated_at := s.now }
        else u) }

/-- Apply a buffered write set in order. -/
def applyWs (s : Store) (ws : List WOp) : Store := ws.foldl applyW s

/-- One SQL-level operation of the handler, for tracing which storage
accesses a request path performs. -/
inductive DbOp where
  | begin
  | selClaims
  | selUsers
  | insClaims
  | insUsers
  | updUsers
  | rollback
  | commit
deriving DecidableEq, Repr

/-- The claim timestamp: the caller-supplied value if truthy, otherwise the
server time (timestamp || new Date().toISOString()). -/
def claimTsOf (v : JsVal) (now : ℕ) : String :=
  if falsy v then "iso" ++ toString now else dbKey v

/-- The writes the success path of the ledger phase buffers: the lazy users
insert when the wallet has no row yet, the claims insert (derived amount =
claimed amount times rate), and the per-token aggregate update. -/
def successWrites (s : Store) (n : Norm) (ts : String) : List WOp :=
  (if (s.users.filter (fun u => u.address == n.addrLower)).isEmpty then
    [WOp.insUser n.addrLower ts]
  else [])
  ++ [WOp.insClaim (toString s.now ++ "_x") n.addrLower n.tokenUpper n.claimAmount
      n.txKey n.rate (n.claimAmount * n.rate) ts]
  ++ (if n.tokenUpper == "TARAL" then
      [WOp.updUser n.addrLower true n.claimAmount (n.claimAmount * n.rate) ts]
    else if n.tokenUpper == "RVLNG" then
      [WOp.updUser n.addrLower false n.claimAmount (n.claimAmount * n.rate) ts]
    else [])

/-- Lines 162-262 of the claim handler: the transaction-hash duplicate check,
the (wallet, token-type) duplicate check, claim-id generation, derived-amount
computation, lazy user creation, the claim insert, the aggregate update and
the post-update summary reads.  The random suffix of the claim id is
abstracted to a fixed placeholder; no property proved here depends on it.
Returns the response, the buffered writes and the SQL trace. -/
def ledgerSubmit (s : Store) (n : Norm) (req : Request) : Resp × List WOp × List DbOp :=
  match s.claims.filter (fun c => c.transaction_hash == n.txKey) with
  | r :: _ => (.duplicateTransaction r.id r.created_at, [], [.selClaims, .rollback])
  | [] =>
    match s.claims.filter
        (fun c => c.user_address == n.addrLower && c.token_type == n.tokenUpper) with
    | r :: _ => (.alreadyClaimed r.id r.created_at, [], [.selClaims, .selClaims, .rollback])
    | [] =>
      let claimId := toString s.now ++ "_x"
      let novaAmount := n.claimAmount * n.rate
      let ts := claimTsOf req.timestamp s.now
      let needUser := (s.users.filter (fun u => u.address == n.addrLower)).isEmpty
      let ws := successWrites s n ts
      let s2 := applyWs s ws
      let totals :=
        match s2.users.filter (fun u => u.address == n.addrLower) with
        | u :: _ => (u.taral_claimed, u.rvlng_claimed, u.total_nova)
        | [] => (0, 0, 0)
      let cnt := (s2.claims.filter (fun c => c.user_address == n.addrLower)).length
      (.success claimId n.tokenUpper n.claimAmount novaAmount n.txKey n.addrLower ts
          totals.1 totals.2.1 totals.2.2 cnt,
        ws,
        [.selClaims, .selClaims, .selUsers]
          ++ (if needUser then [DbOp.insUsers] else [])
          ++ [.insClaims, .updUsers, .selUsers, .selClaims, .commit])

/-- The whole POST /wallet/claim handler: BEGIN is issued first, then the
validation prefix runs; a thrown error is caught, rolled back and surfaced
as a 500; an early rejection returns without further storage work (and
without closing the transaction, as in the source); a normalized request
runs the ledger phase and its buffered writes are applied to the store. -/
def claimHandler (w : Option AllocTable) (s : Store) (req : Request) :
    Resp × Store × List DbOp :=
  match checkRequest w req with
  | .error _ => (.internalError, s, [.begin, .rollback])
  | .ok (.inl resp) => (resp, s, [.begin])
  | .ok (.inr n) =>
    let out := ledgerSubmit s n req
    (out.1, applyWs s out.2.1, DbOp.begin :: out.2.2)

/-- The response and buffered writes of one submit transaction, computed
against the committed state it reads.  Used to model interleavings in which
several transactions pass their existence checks against the same committed
state before any of them commits (the store has no uniqueness constraint and
the code never locks the rows it checks). -/
def submitRW (w : Option AllocTable) (s : Store) (req : Request) : Resp × List WOp :=
  match checkRequest w req with
  | .error _ => (.internalError, [])
  | .ok (.inl resp) => (resp, [])
  | .ok (.inr n) => ((ledgerSubmit s n req).1, (ledgerSubmit s n req).2.1)

/-- Two concurrent submit transactions that both run their SELECT existence
checks against the same committed store before either commits, then commit
in order — the READ COMMITTED interleaving the check-then-act pattern admits. -/
def bothReadThenCommit (w : Option AllocTable) (s : Store) (r1 r2 : Request) :
    Resp × Resp × Store :=
  let o1 := submitRW w s r1
  let o2 := submitRW w s r2
  (o1.1, o2.1, applyWs (applyWs s o1.2) o2.2)

/-- Per-token block of the GET /wallet/allocations/:address response. -/
structure KindStatus where
  allocated : ℚ
  claimed : ℚ
  remaining : ℚ
  canClaim : Bool
deriving DecidableEq, Repr

/-- The responses of GET /wallet/allocations/:address. -/
inductive AllocResp where
  | notFound
  | internalError
  | ok (taral rvlng : KindStatus)
deriving DecidableEq, Repr

/-- Sum of the claimed amounts recorded for one wallet and token type. -/
def claimedSum (s : Store) (address kind : String) : ℚ :=
  ((s.claims.filter (fun c => c.user_address == address && c.token_type == kind)).map
    (fun c => c.amount)).sum

/-- GET /wallet/allocations/:address (lines 308-360): allocation lookup for
the lowercased address, per-kind claimed sums from the claims table, and
remaining = max(0, allocated - claimed) with canClaim = remaining > 0.
A failed-load registry makes the property access throw, caught as a 500. -/
def allocationsHandler (w : Option AllocTable) (s : Store) (addressParam : String) :
    AllocResp :=
  match w with
  | none => .internalError
  | some tbl =>
    let address := lowerStr addressParam
    match lookupAlloc tbl address with
    | none => .notFound
    | some a =>
      let ct := claimedSum s address "TARAL"
      let cr := claimedSum s address "RVLNG"
      let tRem := max 0 (a.taral - ct)
      let rRem := max 0 (a.rvlng - cr)
      .ok ⟨a.taral, ct, tRem, decide (0 < tRem)⟩ ⟨a.rvlng, cr, rRem, decide (0 < rRem)⟩

/-- The responses produced by the validation and authorization prefix, before
any claims or users row is touched. -/
def isEarlyReject : Resp → Bool
  | .missingFields => true
  | .invalidTokenType => true
  | .invalidAmount => true
  | .invalidRate => true
  | .unknownWallet => true
  | .allocationMismatch _ _ => true
  | _ => false

/-- At most one claim record exists for any (wallet, token-type) pair. -/
def PairUnique (s : Store) : Prop :=
  ∀ a t : String,
    (s.claims.filter (fun c => c.user_address == a && c.token_type == t)).length ≤ 1

/-- The stores reachable by running claim submissions one after another,
starting from the empty tables, with the server clock free to move between
calls. -/
inductive SeqReachable : Store → Prop where
  | init (nextId now : ℕ) : SeqReachable ⟨[], [], nextId, now⟩
  | step (w : Option AllocTable) (req : Request) {s : Store} :
      SeqReachable s → SeqReachable ((claimHandler w s req).2.1)
  | tick (now : ℕ) {s : Store} : SeqReachable s → SeqReachable { s with now := now }

/-! ### Concrete scenarios shared by witnesses and counterexamples -/

/-- The specification's running example registry: wallet 0xabc entitled to
50 TARAL and no RVLNG. -/
def exTbl : AllocTable := [("0xabc", ⟨50, 0⟩)]

/-- An empty store with server clock 1000 and next serial id 1. -/
def exStore : Store := ⟨[], [], 1, 1000⟩

/-- The specification's running example request: claim 50 TARAL under
reference tx1 from 0xABC at conversion rate 2. -/
def exReq : Request := ⟨.str "TARAL", .str "50", .str "tx1", .str "0xABC", .undef, .str "2"⟩

/-- The store after the example claim has been processed. -/
def exStore1 : Store := (claimHandler (some exTbl) exStore exReq).2.1

/-- The claim record the example claim inserts. -/
def exRow : ClaimRow :=
  ⟨1, "1000_x", "0xabc", "TARAL", 50, "tx1", 2, 100, "iso1000", "completed", 1000⟩

/-- The normalized form of the example request against the example registry. -/
def exNorm : Norm := ⟨50, 2, "TARAL", "0xabc", "tx1", 50⟩

/-- The example claim re-attempted under a fresh transaction reference tx2. -/
def exReq2 : Request :=
  ⟨.str "TARAL", .str "50", .str "tx2", .str "0xabc", .undef, .str "2"⟩

/-- The normalized form of the tx2 request. -/
def exNorm2 : Norm := ⟨50, 2, "TARAL", "0xabc", "tx2", 50⟩

/-- Registry for the two-transaction scenarios: 0xabc entitled to both kinds. -/
def cTbl : AllocTable := [("0xabc", ⟨50, 7⟩)]

/-- A store in which 0xabc has already claimed its RVLNG entitlement under
reference tx0, so its users row exists and a TARAL claim under a fresh
reference is valid. -/
def cStore : Store :=
  ⟨[⟨1, "900_x", "0xabc", "RVLNG", 7, "tx0", 1, 7, "iso900", "completed", 900⟩],
   [⟨"0xabc", 0, 7, 7, "iso900", "iso900", 900⟩], 2, 1000⟩

/-- The example request with conversion rate supplied as the string "0". -/
def zeroRateReq : Request :=
  ⟨.str "TARAL", .str "50", .str "tx1", .str "0xabc", .undef, .str "0"⟩

/-- A request whose amount field is present but is the number 0. -/
def missingReq : Request :=
  ⟨.str "TARAL", .num 0, .str "tx1", .str "0xabc", .undef, .undef⟩

/-! ### Helper lemmas -/

lemma claimHandler_of_inl {w : Option AllocTable} {req : Request} {r0 : Resp}
    (s : Store) (h : checkRequest w req = .ok (.inl r0)) :
    claimHandler w s req = (r0, s, [DbOp.begin]) := by
  simp [claimHandler, h]

lemma claimHandler_of_inr {w : Option AllocTable} {req : Request} {n : Norm}
    (s : Store) (h : checkRequest w req = .ok (.inr n)) :
    claimHandler w s req = ((ledgerSubmit s n req).1,
      applyWs s (ledgerSubmit s n req).2.1, DbOp.begin :: (ledgerSubmit s n req).2.2) := by
  simp [claimHandler, h]

lemma ledgerSubmit_dup {s : Store} {n : Norm} {r : ClaimRow} {l : List ClaimRow}
    (req : Request)
    (h : s.claims.filter (fun c => c.transaction_hash == n.txKey) = r :: l) :
    ledgerSubmit s n req =
      (.duplicateTransaction r.id r.created_at, [], [.selClaims, .rollback]) := by
  unfold ledgerSubmit
  rw [h]

lemma ledgerSubmit_already {s : Store} {n : Norm} {r : ClaimRow} {l : List ClaimRow}
    (req : Request)
    (h1 : s.claims.filter (fun c => c.transaction_hash == n.txKey) = [])
    (h2 : s.claims.filter
      (fun c => c.user_address == n.addrLower && c.token_type == n.tokenUpper) = r :: l) :
    ledgerSubmit s n req =
      (.alreadyClaimed r.id r.created_at, [], [.selClaims, .selClaims, .rollback]) := by
  unfold ledgerSubmit
  rw [h1, h2]

lemma ledgerSubmit_wops_success {s : Store} {n : Norm} (req : Request)
    (h1 : s.claims.filter (fun c => c.transaction_hash == n.txKey) = [])
    (h2 : s.claims.filter
      (fun c => c.user_address == n.addrLower && c.token_type == n.tokenUpper) = []) :
    (ledgerSubmit s n req).2.1 = successWrites s n (claimTsOf req.timestamp s.now) := by
  unfold ledgerSubmit
  rw [h1, h2]

lemma successWrites_claims (s : Store) (n : Norm) (ts : String) :
    (applyWs s (successWrites s n ts)).claims =
      s.claims ++ [⟨s.nextId, toString s.now ++ "_x", n.addrLower, n.tokenUpper,
        n.claimAmount, n.txKey, n.rate, n.claimAmount * n.rate, ts, "completed", s.now⟩] := by
  unfold successWrites applyWs
  by_cases hu : (s.users.filter (fun u => u.address == n.addrLower)).isEmpty
  · by_cases ht : n.tokenUpper == "TARAL"
    · simp [hu, ht, applyW]
    · by_cases hr : n.tokenUpper == "RVLNG"
      · simp [hu, ht, hr, applyW]
      · simp [hu, ht, hr, applyW]
  · by_cases ht : n.tokenUpper == "TARAL"
    · simp [hu, ht, applyW]
    · by_cases hr : n.tokenUpper == "RVLNG"
      · simp [hu, ht, hr, applyW]
      · simp [hu, ht, hr, applyW]

lemma ledgerSubmit_not_early (s : Store) (n : Norm) (req : Request) :
    isEarlyReject (ledgerSubmit s n req).1 = false := by
  rcases h1 : s.claims.filter (fun c => c.transaction_hash == n.txKey) with _ | ⟨r, l⟩
  · rcases h2 : s.claims.filter
        (fun c => c.user_address == n.addrLower && c.token_type == n.tokenUpper) with _ | ⟨r, l⟩
    · unfold ledgerSubmit
      rw [h1, h2]
      rfl
    · rw [ledgerSubmit_already req h1 h2]
      rfl
  · rw [ledgerSubmit_dup req h1]
    rfl

lemma char_toLower_idem (c : Char) : c.toLower.toLower = c.toLower := by
  have hval : ∀ n : ℕ, n.isValidChar → (Char.ofNat n).toNat = n := by
    intro n h
    simp [Char.ofNat, h, Char.toNat, Char.ofNatAux, UInt32.toNat, BitVec.toNat_ofNatLt]
  unfold Char.toLower
  by_cases h : c.toNat ≥ 65 ∧ c.toNat ≤ 90
  · rw [if_pos h]
    have hv : (c.toNat + 32).isValidChar := by
      left
      omega
    rw [hval _ hv]
    rw [if_neg (by omega)]
  · rw [if_neg h, if_neg h]

lemma lowerStr_idem (s : String) : lowerStr (lowerStr s) = lowerStr s := by
  unfold lowerStr
  refine congrArg String.mk ?_
  rw [List.map_map]
  exact List.map_congr_left (fun c _ => char_toLower_idem c)

lemma pairUnique_preserved (w : Option AllocTable) (req : Request) {s : Store}
    (h : PairUnique s) : PairUnique ((claimHandler w s req).2.1) := by
  cases hcr : checkRequest w req with
  | error e =>
    simpa only [claimHandler, hcr] using h
  | ok v =>
    cases v with
    | inl r0 =>
      simpa only [claimHandler, hcr] using h
    | inr n =>
      rw [claimHandler_of_inr s hcr]
      rcases h1 : s.claims.filter (fun c => c.transaction_hash == n.txKey) with _ | ⟨r, l⟩
      · rcases h2 : s.claims.filter
            (fun c => c.user_address == n.addrLower && c.token_type == n.tokenUpper)
          with _ | ⟨r, l⟩
        · rw [ledgerSubmit_wops_success req h1 h2]
          intro a t
          rw [show (applyWs s (successWrites s n (claimTsOf req.timestamp s.now))).claims =
              _ from successWrites_claims s n (claimTsOf req.timestamp s.now)]
          rw [List.filter_append]
          by_cases hp : (n.addrLower == a && n.tokenUpper == t) = true
          · simp only [Bool.and_eq_true] at hp
            obtain ⟨hpa, hpt⟩ := hp
            obtain rfl : n.addrLower = a := eq_of_beq hpa
            obtain rfl : n.tokenUpper = t := eq_of_beq hpt
            rw [h2]
            simp
          · have hrow : (List.filter (fun c => c.user_address == a && c.token_type == t)
                [(⟨s.nextId, toString s.now ++ "_x", n.addrLower, n.tokenUpper,
                  n.claimAmount, n.txKey, n.rate, n.claimAmount * n.rate,
                  claimTsOf req.timestamp s.now, "completed", s.now⟩ : ClaimRow)]) = [] := by
              simp only [List.filter, hp]
            rw [hrow, List.append_nil]
            exact h a t
        · rw [ledgerSubmit_already req h1 h2]
          exact h
      · rw [ledgerSubmit_dup req h1]
        exact h

lemma checkRequest_inr_rate {w : Option AllocTable} {req : Request} {n : Norm}
    (h : checkRequest w req = .ok (.inr n)) :
    n.rate = effectiveRate req.conversionRate ∧ ¬ effectiveRate req.conversionRate ≤ 0 := by
  unfold checkRequest at h
  split at h
  · simp at h
  · split at h
    · simp at h
    · split at h
      · simp at h
      · split at h
        · simp at h
        · split at h
          · simp at h
          · split at h
            · simp at h
            · split at h
              · simp at h
              · split at h
                · simp at h
                · simp at h
                · split at h
                  · simp at h
                  · simp only [Except.ok.injEq, Sum.inr.injEq] at h
                    subst h
                    exact ⟨rfl, by assumption⟩

lemma checkRequest_invalid_rate {w : Option AllocTable} {req : Request}
    (h : checkRequest w req = .ok (.inl .invalidRate)) :
    effectiveRate req.conversionRate ≤ 0 := by
  unfold checkRequest at h
  split at h
  · simp at h
  · split at h
    · simp at h
    · split at h
      · simp at h
      · split at h
        · simp at h
        · split at h
          · simp at h
          · split at h
            · assumption
            · split at h
              · simp at h
              · split at h
                · simp at h
                · simp at h
                · split at h
                  · simp at h
                  · simp at h

/-! ### The claims -/

/-- C7: every claim record ever created carries
nova_amount = amount × conversion_rate, and the specification's example —
50 TARAL at rate 2 from the registered wallet 0xABC on an empty store —
succeeds with derived amount 100 and wallet totals
(taral 50, rvlng 0, nova 100) at claim count 1. -/
theorem derived_amount_product :
    (∀ (w : Option AllocTable) (s : Store) (req : Request) (c : ClaimRow),
      c ∈ ((claimHandler w s req).2.1).claims →
      c ∈ s.claims ∨ c.nova_amount = c.amount * c.conversion_rate) ∧
    (claimHandler (some exTbl) exStore exReq).1 =
      .success "1000_x" "TARAL" 50 100 "tx1" "0xabc" "iso1000" 50 0 100 1 := by
  refine ⟨?_, by decide⟩
  intro w s req c hc
  cases hcr : checkRequest w req with
  | error e =>
    simp only [claimHandler, hcr] at hc
    exact Or.inl hc
  | ok v =>
    cases v with
    | inl r0 =>
      simp only [claimHandler, hcr] at hc
      exact Or.inl hc
    | inr n =>
      rw [claimHandler_of_inr s hcr] at hc
      rcases h1 : s.claims.filter (fun c => c.transaction_hash == n.txKey) with _ | ⟨r, l⟩
      · rcases h2 : s.claims.filter
            (fun c => c.user_address == n.addrLower && c.token_type == n.tokenUpper)
          with _ | ⟨r, l⟩
        · rw [ledgerSubmit_wops_success req h1 h2, successWrites_claims] at hc
          rcases List.mem_append.mp hc with hin | hnew
          · exact Or.inl hin
          · right
            rcases List.mem_singleton.mp hnew with rfl
            rfl
        · rw [ledgerSubmit_already req h1 h2] at hc
          exact Or.inl hc
      · rw [ledgerSubmit_dup req h1] at hc
        exact Or.inl hc

/-- C7 witness: the record inserted by the example claim satisfies the
derived-amount invariant. -/
theorem derived_amount_product_witness :
    (⟨1, "1000_x", "0xabc", "TARAL", 50, "tx1", 2, 100, "iso1000", "completed", 1000⟩ : ClaimRow)
        ∈ exStore.claims ∨
      ((⟨1, "1000_x", "0xabc", "TARAL", 50, "tx1", 2, 100, "iso1000", "completed", 1000⟩ :
        ClaimRow).nova_amount =
        (⟨1, "1000_x", "0xabc", "TARAL", 50, "tx1", 2, 100, "iso1000", "completed", 1000⟩ :
          ClaimRow).amount *
        (⟨1, "1000_x", "0xabc", "TARAL", 50, "tx1", 2, 100, "iso1000", "completed", 1000⟩ :
          ClaimRow).conversion_rate) :=
  derived_amount_product.1 (some exTbl) exStore exReq _ (by decide)

/-- C10: a required field that is present but JavaScript-falsy (0, "", false,
null, NaN, undefined) makes the handler return MissingFields without touching
either table, whatever the registry and the store; in particular an amount
supplied as the number 0 is rejected as MissingFields, not InvalidAmount. -/
theorem falsy_fields_missing (w : Option AllocTable) (s : Store) (req : Request)
    (h : fieldsMissing req = true) :
    claimHandler w s req = (.missingFields, s, [DbOp.begin]) := by
  have hcr : checkRequest w req = .ok (.inl .missingFields) := by
    unfold checkRequest
    rw [h]
    rfl
  exact claimHandler_of_inl s hcr

/-- C10 witness: the amount-is-the-number-0 request is rejected as
MissingFields. -/
theorem falsy_fields_missing_witness :
    fieldsMissing missingReq = true ∧
    claimHandler (some exTbl) exStore missingReq = (.missingFields, exStore, [DbOp.begin]) :=
  ⟨by decide, falsy_fields_missing (some exTbl) exStore missingReq (by decide)⟩

/-- C3 (documents the code bug): in the interleaving where two submit
transactions with the identical transaction reference tx1 both run their
existence checks against the same committed store before either commits —
which the check-then-act SELECTs admit, the repository defining no unique
constraint and taking no lock — both calls return HTTP 200 success and the
store ends with two claim records for tx1, not one success plus
DuplicateTransaction and a single record as specified. -/
theorem concurrent_double_success :
    statusCode (bothReadThenCommit (some cTbl) cStore exReq exReq).1 = 200 ∧
    statusCode (bothReadThenCommit (some cTbl) cStore exReq exReq).2.1 = 200 ∧
    (((bothReadThenCommit (some cTbl) cStore exReq exReq).2.2).claims.filter
      (fun c => c.transaction_hash == "tx1")).length = 2 := by
  decide

/-- C5 counterexample: a conversion rate supplied as the string "0" is not
rejected with InvalidRate as the claim requires; parseFloat("0") || 1 turns
it into rate 1 and the claim succeeds with derived amount 50. -/
theorem rate_zero_not_rejected :
    checkRequest (some exTbl) zeroRateReq = .ok (.inr ⟨50, 1, "TARAL", "0xabc", "tx1", 50⟩) ∧
    checkRequest (some exTbl) zeroRateReq ≠ .ok (.inl .invalidRate) ∧
    (claimHandler (some exTbl) exStore zeroRateReq).1 =
      .success "1000_x" "TARAL" 50 50 "tx1" "0xabc" "iso1000" 50 0 50 1 := by
  decide

/-- C6 counterexample: a request rejected for a validation reason (missing
fields) still opens a transaction — BEGIN is issued against the store before
validation runs — contradicting the claim that no transaction is opened. -/
theorem begin_before_validation :
    (claimHandler (some exTbl) exStore missingReq).1 = .missingFields ∧
    DbOp.begin ∈ (claimHandler (some exTbl) exStore missingReq).2.2 := by
  decide

/-- C1: when a valid (normalizable) claim request carries a transaction
reference under which the store already holds exactly one record, the
handler returns DuplicateTransaction with that record's id and creation
time, leaves the store untouched — so the existing record's fields are
unchanged — and the store still holds exactly one record under that
reference, whatever the rest of the incoming payload is. -/
theorem duplicate_transaction_conflict
    (w : Option AllocTable) (s : Store) (req : Request) (n : Norm) (r : ClaimRow)
    (hn : checkRequest w req = .ok (.inr n))
    (hr : s.claims.filter (fun c => c.transaction_hash == n.txKey) = [r]) :
    (claimHandler w s req).1 = .duplicateTransaction r.id r.created_at ∧
    (claimHandler w s req).2.1 = s ∧
    (((claimHandler w s req).2.1).claims.filter
      (fun c => c.transaction_hash == n.txKey)).length = 1 ∧
    r ∈ ((claimHandler w s req).2.1).claims := by
  rw [claimHandler_of_inr s hn, ledgerSubmit_dup req hr]
  refine ⟨rfl, rfl, ?_, ?_⟩
  · show (s.claims.filter (fun c => c.transaction_hash == n.txKey)).length = 1
    rw [hr]
    rfl
  · show r ∈ s.claims
    have hm : r ∈ s.claims.filter (fun c => c.transaction_hash == n.txKey) := by
      rw [hr]
      exact List.mem_singleton_self r
    exact List.mem_of_mem_filter hm

/-- C1 witness: resubmitting the example request against the post-claim
store yields DuplicateTransaction with the first claim's id 1 and creation
time 1000, and the store is unchanged with exactly one tx1 record. -/
theorem duplicate_transaction_conflict_witness :
    (claimHandler (some exTbl) exStore1 exReq).1 = .duplicateTransaction 1 1000 ∧
    (claimHandler (some exTbl) exStore1 exReq).2.1 = exStore1 ∧
    (((claimHandler (some exTbl) exStore1 exReq).2.1).claims.filter
      (fun c => c.transaction_hash == exNorm.txKey)).length = 1 ∧
    exRow ∈ ((claimHandler (some exTbl) exStore1 exReq).2.1).claims := by
  have h := duplicate_transaction_conflict (some exTbl) exStore1 exReq exNorm exRow
    (by decide) (by decide)
  exact ⟨h.1, h.2.1, h.2.2.1, h.2.2.2⟩

/-- C2: a valid claim request from a wallet that already holds exactly one
record for the requested token kind, under a distinct transaction reference,
returns AlreadyClaimed with the existing record's id and creation time and
leaves the store with exactly one record for that (wallet, kind) pair; and
every sequentially reachable store has at most one record per pair. -/
theorem already_claimed_conflict :
    (∀ (w : Option AllocTable) (s : Store) (req : Request) (n : Norm) (r : ClaimRow),
      checkRequest w req = .ok (.inr n) →
      s.claims.filter (fun c => c.transaction_hash == n.txKey) = [] →
      s.claims.filter
        (fun c => c.user_address == n.addrLower && c.token_type == n.tokenUpper) = [r] →
      (claimHandler w s req).1 = .alreadyClaimed r.id r.created_at ∧
      (claimHandler w s req).2.1 = s ∧
      (((claimHandler w s req).2.1).claims.filter
        (fun c => c.user_address == n.addrLower && c.token_type == n.tokenUpper)).length = 1) ∧
    (∀ s : Store, SeqReachable s → PairUnique s) := by
  constructor
  · intro w s req n r hn h1 h2
    rw [claimHandler_of_inr s hn, ledgerSubmit_already req h1 h2]
    refine ⟨rfl, rfl, ?_⟩
    show (s.claims.filter
      (fun c => c.user_address == n.addrLower && c.token_type == n.tokenUpper)).length = 1
    rw [h2]
    rfl
  · intro s h
    induction h with
    | init nextId now =>
      intro a t
      simp [List.filter]
    | step w req hs ih => exact pairUnique_preserved w req ih
    | tick now hs ih => exact ih

/-- C2 witness: claiming TARAL again under the fresh reference tx2 after the
example claim yields AlreadyClaimed with the first claim's id 1 and creation
time 1000, the store is unchanged, and the post-claim store satisfies the
one-record-per-pair invariant. -/
theorem already_claimed_conflict_witness :
    (claimHandler (some exTbl) exStore1 exReq2).1 = .alreadyClaimed 1 1000 ∧
    (claimHandler (some exTbl) exStore1 exReq2).2.1 = exStore1 ∧
    PairUnique exStore1 := by
  have h := already_claimed_conflict.1 (some exTbl) exStore1 exReq2 exNorm2 exRow
    (by decide) (by decide) (by decide)
  exact ⟨h.1, h.2.1,
    already_claimed_conflict.2 exStore1
      (SeqReachable.step (some exTbl) exReq (SeqReachable.init 1 1000))⟩

/-- C8 counterexample: with the registry absent after a failed load, the
allocation lookup throws instead of reporting absent, and a well-formed claim
request is rejected with InternalError (500), not UnknownWallet (403). -/
theorem failed_load_lookup_throws :
    getUserAllocation none "0xabc" "TARAL" = .error () ∧
    getUserAllocation none "0xabc" "TARAL" ≠ .ok none ∧
    (claimHandler none exStore exReq).1 = .internalError ∧
    (claimHandler none exStore exReq).1 ≠ .unknownWallet := by
  decide

/-- C5 amended: an absent conversion rate is used as 1, but so are a
non-numeric and a zero rate, because the code computes
parseFloat(conversionRate) || 1; only a rate that parses to a negative
number is rejected with InvalidRate, and such a rejection reads and writes
no claim or user record (only the BEGIN already issued).  A rate that parses
to a positive number is used as parsed, and every normalized request carries
a strictly positive rate. -/
theorem rate_semantics (w : Option AllocTable) (req : Request) :
    (∀ n : Norm, checkRequest w req = .ok (.inr n) →
      n.rate = effectiveRate req.conversionRate ∧ 0 < n.rate ∧
      ((jsParseFloat req.conversionRate = none ∨ jsParseFloat req.conversionRate = some 0) →
        n.rate = 1) ∧
      (∀ r0 : ℚ, jsParseFloat req.conversionRate = some r0 → 0 < r0 → n.rate = r0)) ∧
    (checkRequest w req = .ok (.inl .invalidRate) →
      ∃ r0 : ℚ, jsParseFloat req.conversionRate = some r0 ∧ r0 < 0) ∧
    (∀ s : Store, checkRequest w req = .ok (.inl .invalidRate) →
      (claimHandler w s req).2.2 = [DbOp.begin] ∧ (claimHandler w s req).2.1 = s) := by
  refine ⟨?_, ?_, ?_⟩
  · intro n h
    obtain ⟨hre, hpos⟩ := checkRequest_inr_rate h
    refine ⟨hre, ?_, ?_, ?_⟩
    · rw [hre]
      exact lt_of_not_le hpos
    · intro hcase
      rw [hre]
      unfold effectiveRate
      rcases hcase with hc | hc
      · rw [hc]
      · rw [hc]
        simp
    · intro r0 hp hr0
      rw [hre]
      simp only [effectiveRate, hp]
      rw [if_neg (ne_of_gt hr0)]
  · intro h
    have hle := checkRequest_invalid_rate h
    unfold effectiveRate at hle
    cases hp : jsParseFloat req.conversionRate with
    | none =>
      rw [hp] at hle
      norm_num at hle
    | some r0 =>
      simp only [hp] at hle
      by_cases hz : r0 = 0
      · rw [if_pos hz] at hle
        norm_num at hle
      · rw [if_neg hz] at hle
        exact ⟨r0, rfl, lt_of_le_of_ne hle hz⟩
  · intro s h
    rw [claimHandler_of_inl s h]
    exact ⟨rfl, rfl⟩

/-- C5 witness: the rate "-2" request is rejected with InvalidRate after
only the BEGIN, and the example rate "2" request is normalized at rate 2. -/
theorem rate_semantics_witness :
    (∃ r0 : ℚ, jsParseFloat (JsVal.str "-2") = some r0 ∧ r0 < 0) ∧
    ((claimHandler (some exTbl) exStore
        ⟨.str "TARAL", .str "50", .str "tx1", .str "0xabc", .undef, .str "-2"⟩).2.2 =
      [DbOp.begin] ∧
     (claimHandler (some exTbl) exStore
        ⟨.str "TARAL", .str "50", .str "tx1", .str "0xabc", .undef, .str "-2"⟩).2.1 =
      exStore) ∧
    exNorm.rate = 2 := by
  refine ⟨?_, ?_, ?_⟩
  · exact (rate_semantics (some exTbl)
      ⟨.str "TARAL", .str "50", .str "tx1", .str "0xabc", .undef, .str "-2"⟩).2.1 (by decide)
  · exact (rate_semantics (some exTbl)
      ⟨.str "TARAL", .str "50", .str "tx1", .str "0xabc", .undef, .str "-2"⟩).2.2 exStore
      (by decide)
  · have h := ((rate_semantics (some exTbl) exReq).1 exNorm (by decide)).2.2.2 2
      (by decide) (by norm_num)
    exact h

/-- C6 amended: a request rejected for a validation or authorization reason
reads and writes no claim or user record and leaves the store unchanged; the
only storage interaction on such a path is the BEGIN the handler issues
before validating (which these paths also leave uncommitted). -/
theorem early_reject_no_row_access (w : Option AllocTable) (s : Store) (req : Request)
    (h : isEarlyReject (claimHandler w s req).1 = true) :
    (claimHandler w s req).2.2 = [DbOp.begin] ∧ (claimHandler w s req).2.1 = s := by
  cases hcr : checkRequest w req with
  | error e =>
    have hh : claimHandler w s req = (.internalError, s, [.begin, .rollback]) := by
      simp [claimHandler, hcr]
    rw [hh] at h
    have h3 : isEarlyReject Resp.internalError = true := h
    exact absurd h3 (by decide)
  | ok v =>
    cases v with
    | inl r0 =>
      rw [claimHandler_of_inl s hcr]
      exact ⟨rfl, rfl⟩
    | inr n =>
      rw [claimHandler_of_inr s hcr] at h
      have h2 : isEarlyReject (ledgerSubmit s n req).1 = true := h
      rw [ledgerSubmit_not_early s n req] at h2
      exact absurd h2 (by decide)

/-- C6 amended witness: the missing-fields rejection leaves the store
unchanged with BEGIN as its only storage operation. -/
theorem early_reject_no_row_access_witness :
    (claimHandler (some exTbl) exStore missingReq).2.2 = [DbOp.begin] ∧
    (claimHandler (some exTbl) exStore missingReq).2.1 = exStore :=
  early_reject_no_row_access (some exTbl) exStore missingReq (by decide)

/-- C8 amended: when the allocation source failed to load the registry is
undefined, every allocation lookup throws (modelled by Except.error) instead
of reporting absent, and every claim request that passes the local
validation checks is rejected with InternalError — the handler catches the
throw, rolls back and answers 500, so the process does not crash — rather
than with the UnknownWallet authorization failure. -/
theorem failed_load_internal_error :
    (∀ addr ty : String, getUserAllocation none addr ty = .error ()) ∧
    (∀ (s : Store) (req : Request), shapeOK req = true →
      claimHandler none s req = (.internalError, s, [.begin, .rollback])) := by
  constructor
  · intro addr ty
    rfl
  · intro s req h
    simp only [shapeOK, Bool.and_eq_true, Bool.not_eq_true'] at h
    obtain ⟨⟨⟨⟨hmiss, htk⟩, hamt⟩, hrate⟩, hua⟩ := h
    have hcr : checkRequest none req = .error () := by
      unfold checkRequest
      rw [hmiss]
      simp only [if_neg Bool.false_ne_true]
      cases htt : req.tokenType with
      | str tk =>
        simp only [htt, tokenKindValidStr] at htk
        simp only [jsUpper]
        have hkind : (!(upperStr tk == "TARAL" || upperStr tk == "RVLNG")) = false := by
          rw [htk]
          rfl
        rw [hkind]
        simp only [if_neg Bool.false_ne_true]
        unfold amountValid at hamt
        cases hpa : jsParseFloat req.amount with
        | none =>
          rw [hpa] at hamt
          simp at hamt
        | some a =>
          rw [hpa] at hamt
          simp only [decide_eq_true_eq] at hamt
          simp only [hpa]
          rw [if_neg (not_le.mpr hamt)]
          unfold rateValid at hrate
          simp only [decide_eq_true_eq] at hrate
          rw [if_neg (not_le.mpr hrate)]
          cases hut : req.userAddress with
          | str ua => rfl
          | undef => rw [hut] at hua; simp at hua
          | null => rw [hut] at hua; simp at hua
          | boolV b => rw [hut] at hua; simp at hua
          | num q => rw [hut] at hua; simp at hua
          | nan => rw [hut] at hua; simp at hua
      | undef => rw [htt] at htk; simp at htk
      | null => rw [htt] at htk; simp at htk
      | boolV b => rw [htt] at htk; simp at htk
      | num q => rw [htt] at htk; simp at htk
      | nan => rw [htt] at htk; simp at htk
    simp [claimHandler, hcr]

/-- C8 amended witness: the example request is shape-valid and, with the
registry absent, is answered with InternalError and a rollback. -/
theorem failed_load_internal_error_witness :
    shapeOK exReq = true ∧
    claimHandler none exStore exReq = (.internalError, exStore, [.begin, .rollback]) :=
  ⟨by decide, failed_load_internal_error.2 exStore exReq (by decide)⟩

/-- C9: for a wallet present in the allocation table, the allocation-status
endpoint reports, for each token kind, the allocated entitlement, the sum of
that wallet's recorded claim amounts for the kind, remaining =
max(0, allocated − claimed) — never negative even when claimed exceeds
allocated — and canClaim exactly when remaining is positive; in particular,
after the example wallet fully claims its 50 TARAL allocation, TARAL shows
remaining 0 and canClaim false. -/
theorem allocation_status_fields :
    (∀ (tbl : AllocTable) (s : Store) (addr : String) (a : AllocEntry),
      lookupAlloc tbl (lowerStr addr) = some a →
      ∃ kt kr : KindStatus,
        allocationsHandler (some tbl) s addr = .ok kt kr ∧
        kt.allocated = a.taral ∧
        kt.claimed = claimedSum s (lowerStr addr) "TARAL" ∧
        kt.remaining = max 0 (kt.allocated - kt.claimed) ∧
        0 ≤ kt.remaining ∧
        (kt.canClaim = true ↔ 0 < kt.remaining) ∧
        kr.allocated = a.rvlng ∧
        kr.claimed = claimedSum s (lowerStr addr) "RVLNG" ∧
        kr.remaining = max 0 (kr.allocated - kr.claimed) ∧
        0 ≤ kr.remaining ∧
        (kr.canClaim = true ↔ 0 < kr.remaining)) ∧
    allocationsHandler (some exTbl) exStore1 "0xabc" =
      .ok ⟨50, 50, 0, false⟩ ⟨0, 0, 0, false⟩ := by
  constructor
  · intro tbl s addr a ha
    have hh : allocationsHandler (some tbl) s addr =
        .ok
          ⟨a.taral, claimedSum s (lowerStr addr) "TARAL",
            max 0 (a.taral - claimedSum s (lowerStr addr) "TARAL"),
            decide (0 < max 0 (a.taral - claimedSum s (lowerStr addr) "TARAL"))⟩
          ⟨a.rvlng, claimedSum s (lowerStr addr) "RVLNG",
            max 0 (a.rvlng - claimedSum s (lowerStr addr) "RVLNG"),
            decide (0 < max 0 (a.rvlng - claimedSum s (lowerStr addr) "RVLNG"))⟩ := by
      simp only [allocationsHandler, ha]
    refine ⟨_, _, hh, rfl, rfl, rfl, le_max_left 0 _, ?_, rfl, rfl, rfl, le_max_left 0 _, ?_⟩
    · exact decide_eq_true_iff
    · exact decide_eq_true_iff
  · decide

/-- C9 witness: instantiating the allocation-status contract at the
post-claim example store, where wallet 0xabc has fully claimed its 50 TARAL. -/
theorem allocation_status_fields_witness :
    ∃ kt kr : KindStatus,
      allocationsHandler (some exTbl) exStore1 "0xabc" = .ok kt kr ∧
      kt.allocated = (⟨50, 0⟩ : AllocEntry).taral ∧
      kt.claimed = claimedSum exStore1 (lowerStr "0xabc") "TARAL" ∧
      kt.remaining = max 0 (kt.allocated - kt.claimed) ∧
      0 ≤ kt.remaining ∧
      (kt.canClaim = true ↔ 0 < kt.remaining) ∧
      kr.allocated = (⟨50, 0⟩ : AllocEntry).rvlng ∧
      kr.claimed = claimedSum exStore1 (lowerStr "0xabc") "RVLNG" ∧
      kr.remaining = max 0 (kr.allocated - kr.claimed) ∧
      0 ≤ kr.remaining ∧
      (kr.canClaim = true ↔ 0 < kr.remaining) :=
  allocation_status_fields.1 exTbl exStore1 "0xabc" ⟨50, 0⟩ (by decide)

/-- C4: on a request whose token type and wallet address are strings (as
JSON delivers them), the validator applies its checks in the fixed order
MissingFields, InvalidTokenKind, InvalidAmount, InvalidRate, UnknownWallet,
AllocationMismatch, returning the rejection of the first failing check and
never a later one; UnknownWallet is returned exactly when every earlier
check passes and the lowercased wallet address has no entry in the loaded
allocation table. -/
theorem validator_order (tbl : AllocTable) (req : Request) (tk ua : String)
    (htk : req.tokenType = .str tk) (hua : req.userAddress = .str ua) :
    (fieldsMissing req = true → checkRequest (some tbl) req = .ok (.inl .missingFields)) ∧
    (checkRequest (some tbl) req = .ok (.inl .invalidTokenType) ↔
      fieldsMissing req = false ∧ tokenKindValidStr tk = false) ∧
    (checkRequest (some tbl) req = .ok (.inl .invalidAmount) ↔
      fieldsMissing req = false ∧ tokenKindValidStr tk = true ∧ amountValid req = false) ∧
    (checkRequest (some tbl) req = .ok (.inl .invalidRate) ↔
      fieldsMissing req = false ∧ tokenKindValidStr tk = true ∧ amountValid req = true ∧
      rateValid req = false) ∧
    (checkRequest (some tbl) req = .ok (.inl .unknownWallet) ↔
      fieldsMissing req = false ∧ tokenKindValidStr tk = true ∧ amountValid req = true ∧
      rateValid req = true ∧ lookupAlloc tbl (lowerStr ua) = none) ∧
    (∀ e p : ℚ, checkRequest (some tbl) req = .ok (.inl (.allocationMismatch e p)) →
      fieldsMissing req = false ∧ tokenKindValidStr tk = true ∧ amountValid req = true ∧
      rateValid req = true ∧ lookupAlloc tbl (lowerStr ua) ≠ none) := by
  cases hmiss : fieldsMissing req with
  | true =>
    have hcr : checkRequest (some tbl) req = .ok (.inl .missingFields) := by
      unfold checkRequest
      rw [hmiss]
      rfl
    refine ⟨fun _ => hcr, ?_, ?_, ?_, ?_, ?_⟩ <;> simp [hcr, hmiss]
  | false =>
    cases hkv : tokenKindValidStr tk with
    | false =>
      have hor : (upperStr tk == "TARAL" || upperStr tk == "RVLNG") = false := by
        unfold tokenKindValidStr at hkv
        exact hkv
      have hcr : checkRequest (some tbl) req = .ok (.inl .invalidTokenType) := by
        unfold checkRequest
        rw [hmiss]
        simp only [Bool.false_eq_true, if_false, htk, jsUpper, hor]
        rfl
      refine ⟨?_, ?_, ?_, ?_, ?_, ?_⟩ <;> simp [hcr, hmiss, hkv]
    | true =>
      have hor : (upperStr tk == "TARAL" || upperStr tk == "RVLNG") = true := by
        unfold tokenKindValidStr at hkv
        exact hkv
      cases hpa : jsParseFloat req.amount with
      | none =>
        have hamt : amountValid req = false := by
          simp [amountValid, hpa]
        have hcr : checkRequest (some tbl) req = .ok (.inl .invalidAmount) := by
          unfold checkRequest
          rw [hmiss]
          simp only [Bool.false_eq_true, if_false, htk, jsUpper, hor, Bool.not_true, hpa]
        refine ⟨?_, ?_, ?_, ?_, ?_, ?_⟩ <;> simp [hcr, hmiss, hkv, hamt]
      | some ca =>
        by_cases hle : ca ≤ 0
        · have hamt : amountValid req = false := by
            simp only [amountValid, hpa]
            exact decide_eq_false (not_lt.mpr hle)
          have hcr : checkRequest (some tbl) req = .ok (.inl .invalidAmount) := by
            unfold checkRequest
            rw [hmiss]
            simp only [Bool.false_eq_true, if_false, htk, jsUpper, hor, Bool.not_true, hpa,
              if_pos hle]
          refine ⟨?_, ?_, ?_, ?_, ?_, ?_⟩ <;> simp [hcr, hmiss, hkv, hamt]
        · have hamt : amountValid req = true := by
            simp only [amountValid, hpa]
            exact decide_eq_true (lt_of_not_le hle)
          by_cases hrle : effectiveRate req.conversionRate ≤ 0
          · have hrv : rateValid req = false := by
              unfold rateValid
              exact decide_eq_false (not_lt.mpr hrle)
            have hcr : checkRequest (some tbl) req = .ok (.inl .invalidRate) := by
              unfold checkRequest
              rw [hmiss]
              simp only [Bool.false_eq_true, if_false, htk, jsUpper, hor, Bool.not_true, hpa,
                if_neg hle, if_pos hrle]
            refine ⟨?_, ?_, ?_, ?_, ?_, ?_⟩ <;> simp [hcr, hmiss, hkv, hamt, hrv]
          · have hrv : rateValid req = true := by
              unfold rateValid
              exact decide_eq_true (lt_of_not_le hrle)
            cases hlk : lookupAlloc tbl (lowerStr ua) with
            | none =>
              have hcr : checkRequest (some tbl) req = .ok (.inl .unknownWallet) := by
                unfold checkRequest
                rw [hmiss]
                simp only [Bool.false_eq_true, if_false, htk, jsUpper, hor, Bool.not_true, hpa,
                  if_neg hle, if_neg hrle, hua, jsLower, getUserAllocation, lowerStr_idem, hlk]
              refine ⟨?_, ?_, ?_, ?_, ?_, ?_⟩ <;> simp [hcr, hmiss, hkv, hamt, hrv, hlk]
            | some a0 =>
              by_cases hgt : |ca - (if upperStr (upperStr tk) == "TARAL" then a0.taral
                  else a0.rvlng)| > 1 / 100
              · have hcr : checkRequest (some tbl) req =
                    .ok (.inl (.allocationMismatch
                      (if upperStr (upperStr tk) == "TARAL" then a0.taral else a0.rvlng) ca)) := by
                  unfold checkRequest
                  rw [hmiss]
                  simp only [Bool.false_eq_true, if_false, htk, jsUpper, hor, Bool.not_true, hpa,
                    if_neg hle, if_neg hrle, hua, jsLower, getUserAllocation, lowerStr_idem, hlk,
                    if_pos hgt]
                refine ⟨?_, ?_, ?_, ?_, ?_, ?_⟩ <;> simp [hcr, hmiss, hkv, hamt, hrv, hlk]
              · have hcr : checkRequest (some tbl) req =
                    .ok (.inr ⟨ca, effectiveRate req.conversionRate, upperStr tk, lowerStr ua,
                      dbKey req.transactionHash,
                      if upperStr (upperStr tk) == "TARAL" then a0.taral else a0.rvlng⟩) := by
                  unfold checkRequest
                  rw [hmiss]
                  simp only [Bool.false_eq_true, if_false, htk, jsUpper, hor, Bool.not_true, hpa,
                    if_neg hle, if_neg hrle, hua, jsLower, getUserAllocation, lowerStr_idem, hlk,
                    if_neg hgt]
                refine ⟨?_, ?_, ?_, ?_, ?_, ?_⟩ <;> simp [hcr, hmiss, hkv, hamt, hrv, hlk]

/-- C4 witness: a bad token kind is rejected as InvalidTokenKind, and an
address outside the table — with every earlier check passing — as
UnknownWallet. -/
theorem validator_order_witness :
    checkRequest (some exTbl)
      ⟨.str "BTC", .str "50", .str "tx1", .str "0xabc", .undef, .undef⟩ =
      .ok (.inl .invalidTokenType) ∧
    checkRequest (some exTbl)
      ⟨.str "TARAL", .str "50", .str "tx1", .str "0xZZZ", .undef, .undef⟩ =
      .ok (.inl .unknownWallet) :=
  ⟨(validator_order exTbl
      ⟨.str "BTC", .str "50", .str "tx1", .str "0xabc", .undef, .undef⟩
      "BTC" "0xabc" rfl rfl).2.1.mpr (by decide),
   (validator_order exTbl
      ⟨.str "TARAL", .str "50", .str "tx1", .str "0xZZZ", .undef, .undef⟩
      "TARAL" "0xZZZ" rfl rfl).2.2.2.2.1.mpr (by decide)⟩

end WalletMigration
